import Mathlib

/-!
Verification of the Redis namespace-isolation layer of `bun_database_wrappers`.

The development shallowly embeds the namespace wrapper of
`src/demos/redis_demo.ts` (the `createNamespacedRedis` / `clearNamespace`
module, lines 232-455) together with the parts of `RedisWrapper`
(`rediswrapper.ts`, given as `unnamed/part_008`) that the wrapper forwards to.

Keys, channel names and values are modelled as lists of characters
(`Str`), the underlying key-value store as a partial map from physical
keys to values, and the store's keyspace (for SCAN/DEL) as a list of the
physical keys currently present.  The external Redis client is modelled
by: a glob matcher over `*` and `?` (the store-side pattern language), a
cursor-based paged scan (`clientScan`, cursor `"0"` rendered as the
number `0`), single-key existence, and bulk delete returning the number
of keys that existed.  Stateful wrapper operations are embedded in
state-passing style.
-/

/-- Strings are modelled as lists of characters. -/
abbrev Str := List Char

/-- Conversion from a Lean string literal to the `Str` model. -/
def strOf (s : String) : Str := s.data

/-- Model of JavaScript `s.endsWith(t)`. -/
def strEndsWith (s t : Str) : Bool := t.isSuffixOf s

/-- Model of JavaScript `s.startsWith(t)`. -/
def strStartsWith (s t : Str) : Bool := t.isPrefixOf s

/-- Tests whether `f` holds of some suffix of the argument (the argument
itself included).  Used for the `*` case of the glob matcher. -/
def anySuffix (f : Str → Bool) : Str → Bool
  | [] => f []
  | c :: s => f (c :: s) || anySuffix f s

/-- Model of the store-side glob matching used by Redis `SCAN ... MATCH`:
`*` matches any (possibly empty) sequence, `?` matches exactly one
character, every other character matches itself.  (External collaborator:
the wrapper never interprets patterns itself, it only prepends a literal
namespace.) -/
def globMatch (p s : Str) : Bool :=
  match p with
  | [] => s.isEmpty
  | c :: p' =>
    if c = '*' then anySuffix (globMatch p') s
    else
      match s with
      | [] => false
      | d :: s' => (c = '?' || c = d) && globMatch p' s'

/-- A string is glob-free when it contains no pattern-special character,
so that it occurs as a literal inside a pattern. -/
def GlobFree (s : Str) : Prop := ∀ c ∈ s, c ≠ '*' ∧ c ≠ '?'

instance (s : Str) : Decidable (GlobFree s) :=
  List.decidableBAll (fun c => c ≠ '*' ∧ c ≠ '?') s

/-- Tests that a string ends with exactly one `':'` separator (a final
`':'` not preceded by another `':'`). -/
def endsWithOneSep (s : Str) : Bool := strEndsWith s [':'] && !(strEndsWith s [':', ':'])

/-- Namespace normalization of `createNamespacedRedis` (redis_demo.ts
line 237) and `clearNamespace` (line 446):
`namespace.endsWith(":") ? namespace : namespace + ":"`. -/
def normalizePrefix (ns : Str) : Str := if strEndsWith ns [':'] then ns else ns ++ [':']

/-- Physical-key construction `addPrefix` (redis_demo.ts line 242):
plain string concatenation of the normalized namespace and the key. -/
def addPrefix (pre key : Str) : Str := pre ++ key

/-- Result rewriting `removePrefix` (redis_demo.ts lines 247-248):
`key.startsWith(prefix) ? key.slice(prefix.length) : key`. -/
def removePrefix (pre key : Str) : Str :=
  if strStartsWith key pre then key.drop pre.length else key

/-- Model of the shared store's value state: a map from physical keys to
optionally present values. -/
abbrev Store := Str → Option Str

/-- Model of the underlying client `GET` (forwarded unchanged by
`RedisWrapper.get`, part_008 lines 60-62). -/
def redisGet (st : Store) (k : Str) : Option Str := st k

/-- Model of the underlying client `SET` (forwarded by
`RedisWrapper.set`, part_008 lines 71-81): stores the value under the
single given physical key, leaving every other key unchanged. -/
def redisSet (st : Store) (k v : Str) : Store :=
  fun k' => if k' = k then some v else st k'

/-- Model of the underlying client `EXISTS` on a single key. -/
def clientExists (st : Store) (k : Str) : Bool := (st k).isSome

/-- Embedding of `RedisWrapper.exists` (part_008 lines 119-122): returns
`false` on an empty key list and otherwise checks only the FIRST key:
`if (keys.length === 0) return false; return this.client.exists(keys[0]!)`.
The source name is `exists`; it is a reserved word here. -/
def RedisWrapper.existsKeys (st : Store) (keys : List Str) : Bool :=
  match keys with
  | [] => false
  | k :: _ => clientExists st k

/-- Keys of the keyspace matching a pattern, in store order (the set the
store's SCAN iterates over). -/
def clientMatches (keyspace : List Str) (pat : Str) : List Str :=
  keyspace.filter (fun k => globMatch pat k)

/-- Model of one round of the client's cursor-based
`SCAN cursor MATCH pat COUNT count` (external collaborator): the cursor
is the position reached inside the matching key sequence, `0` doubles as
the start and the completion sentinel (the source works with the string
cursor `"0"`).  A round returns the next page of at most `count` keys
plus the follow-up cursor. -/
def clientScan (keyspace : List Str) (pat : Str) (count cursor : Nat) : Nat × List Str :=
  let ms := clientMatches keyspace pat
  (if ms.length ≤ cursor + count then 0 else cursor + count, (ms.drop cursor).take count)

/-- Loop body of `RedisWrapper.scanAll` (part_008 lines 347-356): issue a
scan round at the current cursor, append the returned page, stop when the
returned cursor is the `0` sentinel.  The fuel argument only bounds the
number of rounds of the source's do/while loop; `scanAllGo_drop` below
shows `keyspace.length + 1` rounds always complete the iteration. -/
def scanAllGo (keyspace : List Str) (pat : Str) (count : Nat) : Nat → Nat → List Str
  | 0, _ => []
  | fuel + 1, cursor =>
    let r := clientScan keyspace pat count cursor
    if r.1 = 0 then r.2 else r.2 ++ scanAllGo keyspace pat count fuel r.1

/-- Embedding of `RedisWrapper.scanAll` (part_008 lines 347-356): start
from cursor `"0"` and accumulate pages until the store returns the `"0"`
sentinel again. -/
def RedisWrapper.scanAll (keyspace : List Str) (pat : Str) (count : Nat) : List Str :=
  scanAllGo keyspace pat count (keyspace.length + 1) 0

/-- Variant of the `scanAll` loop over a fallible scan round, embedding
the implicit exception propagation of the source's `await` calls: a
failing round makes the whole call return that failure. -/
def scanAllGoE {ε : Type} (scan : Nat → Except ε (Nat × List Str)) :
    Nat → Nat → Except ε (List Str)
  | 0, _ => Except.ok []
  | fuel + 1, cursor =>
    match scan cursor with
    | Except.error e => Except.error e
    | Except.ok r =>
      if r.1 = 0 then Except.ok r.2
      else
        match scanAllGoE scan fuel r.1 with
        | Except.error e => Except.error e
        | Except.ok rest => Except.ok (r.2 ++ rest)

/-- Fallible `scanAll`: the loop of `scanAllGoE` started at cursor `0`. -/
def RedisWrapper.scanAllE {ε : Type} (scan : Nat → Except ε (Nat × List Str))
    (fuel : Nat) : Except ε (List Str) :=
  scanAllGoE scan fuel 0

/-- Model of the underlying client bulk `DEL` (external collaborator):
removes the listed keys from the keyspace and returns the number of keys
actually present and removed. -/
def redisDel (keyspace : List Str) (ks : List Str) : Nat × List Str :=
  ((keyspace.filter (fun k => ks.contains k)).length,
   keyspace.filter (fun k => !(ks.contains k)))

/-- Embedding of `clearNamespace` (redis_demo.ts lines 442-455):
normalize the namespace, scan for `prefix + "*"` (with the source's
default page size 1000), and bulk-delete the scanned keys only when some
were found.  The embedding additionally returns the resulting keyspace
and the list of issued bulk-delete calls, so that "no delete call is
issued" is observable. -/
def clearNamespace (keyspace : List Str) (ns : Str) : Nat × List Str × List (List Str) :=
  let pre := normalizePrefix ns
  let pat := pre ++ ['*']
  let keys := RedisWrapper.scanAll keyspace pat 1000
  if keys.length > 0 then
    let r := redisDel keyspace keys
    (r.1, r.2, [keys])
  else
    (0, keyspace, [])

/-- Namespaced `get` (redis_demo.ts lines 255-257):
`redis.get(addPrefix(key))`. -/
def NamespacedRedis.get (st : Store) (pre k : Str) : Option Str :=
  redisGet st (addPrefix pre k)

/-- Namespaced `set` (redis_demo.ts lines 259-261):
`redis.set(addPrefix(key), value, options)` (the options bag is passed
through unmodified and does not touch the key, so it is omitted here). -/
def NamespacedRedis.set (st : Store) (pre k v : Str) : Store :=
  redisSet st (addPrefix pre k) v

/-- Namespaced `exists` (redis_demo.ts lines 267-269):
`redis.exists(...keys.map(addPrefix))`. -/
def NamespacedRedis.existsKeys (st : Store) (pre : Str) (keys : List Str) : Bool :=
  RedisWrapper.existsKeys st (keys.map (fun k => addPrefix pre k))

/-- Namespaced `scanAll` (redis_demo.ts lines 355-360): scan with the
prefixed pattern, then strip the prefix from every returned key. -/
def NamespacedRedis.scanAll (keyspace : List Str) (pre pat : Str) (count : Nat) : List Str :=
  (RedisWrapper.scanAll keyspace (addPrefix pre pat) count).map (fun k => removePrefix pre k)

/-- Model of channel-based message delivery (external collaborator): a
subscription list pairs each physical channel name with a subscriber
identifier, and publishing on a physical channel delivers to exactly the
subscribers registered on that channel. -/
def publishTo (subs : List (Str × Nat)) (channel : Str) : List Nat :=
  (subs.filter (fun e => e.1 = channel)).map (fun e => e.2)

/-- Namespaced `subscribe` (redis_demo.ts lines 366-368) registers the
callback under the PREFIXED channel: the resulting subscription entry. -/
def NamespacedRedis.subscription (pre channel : Str) (id : Nat) : Str × Nat :=
  (addPrefix pre channel, id)

/-- Namespaced `publish` (redis_demo.ts lines 370-372): publish on the
prefixed channel; the delivery set is that of the physical channel. -/
def NamespacedRedis.publish (subs : List (Str × Nat)) (pre channel : Str) : List Nat :=
  publishTo subs (addPrefix pre channel)

/-- Surface of the shared connection's TTL operations (`RedisWrapper`).
`ttl` and `expire` forward to the client (part_008 lines 163-179).
Modelled from the spec: `RedisWrapper.setTTL` itself (declared in the
`NamespacedRedisWrapper` interface, redis_demo.ts line 177, and used by
the demos and README) is absent from the given sources; per the spec's
TTL-ops row it takes the key, returns a store-defined result passed
through verbatim, so the connection is modelled as an opaque bundle of
one operation per name. -/
structure RedisConn where
  ttl : Str → Int
  setTTL : Str → Int → Bool
  expire : Str → Int → Int

/-- Namespaced `ttl` (redis_demo.ts lines 339-341):
`redis.ttl(addPrefix(key))`. -/
def NamespacedRedis.ttl (c : RedisConn) (pre k : Str) : Int :=
  c.ttl (addPrefix pre k)

/-- Namespaced `setTTL` (redis_demo.ts lines 343-345):
`redis.setTTL(addPrefix(key), seconds)`. -/
def NamespacedRedis.setTTL (c : RedisConn) (pre k : Str) (seconds : Int) : Bool :=
  c.setTTL (addPrefix pre k) seconds

/-- Namespaced `expire` (redis_demo.ts lines 347-349):
`redis.expire(addPrefix(key), seconds)`. -/
def NamespacedRedis.expire (c : RedisConn) (pre k : Str) (seconds : Int) : Int :=
  c.expire (addPrefix pre k) seconds

/-- State of the shared connection as a whole: its stored values and
whether it has been closed. -/
structure RedisConnState where
  store : Store
  closed : Bool

/-- Embedding of the namespaced wrapper's `[Symbol.asyncDispose]`
(redis_demo.ts lines 418-422): the body is empty — it deliberately does
not dispose the shared connection — so in state-passing form it is the
identity on the connection state. -/
def NamespacedRedis.asyncDispose (s : RedisConnState) : RedisConnState := s

/-- Embedding of `RedisWrapper.close` (part_008 lines 407-409), for
contrast with disposal of a namespace wrapper: closing the shared
connection does mark it closed. -/
def RedisWrapper.close (s : RedisConnState) : RedisConnState :=
  { s with closed := true }

/-- Every string matches the lone-star pattern. -/
theorem anySuffix_globNil (t : Str) : anySuffix (fun s : Str => List.isEmpty s) t = true := by
  induction t with
  | nil => rfl
  | cons c s ih => simp [anySuffix, ih]

/-- The pattern consisting only of a star matches every string. -/
theorem globMatch_star (t : Str) : globMatch (['*']) t = true := by
  simp [globMatch, anySuffix_globNil]

/-- The JavaScript startsWith model agrees with list-prefix order. -/
theorem strStartsWith_iff (s t : Str) : strStartsWith s t = true ↔ t <+: s := by
  simp [strStartsWith]

/-- The JavaScript endsWith model agrees with list-suffix order. -/
theorem strEndsWith_iff (s t : Str) : strEndsWith s t = true ↔ t <:+ s := by
  simp [strEndsWith]

/-- Matching against a pattern that begins with a glob-free literal
decomposes: the string must begin with that literal, and the remainder
must match the remaining pattern. -/
theorem globMatch_append_left (pre pat : Str) : ∀ s : Str, GlobFree pre →
    (globMatch (pre ++ pat) s = true ↔ ∃ t, s = pre ++ t ∧ globMatch pat t = true) := by
  induction pre with
  | nil =>
    intro s _
    simp
  | cons c pre ih =>
    intro s hp
    obtain ⟨hcs, hcq⟩ := hp c (by simp)
    have hp' : GlobFree pre := fun d hd => hp d (by simp [hd])
    cases s with
    | nil =>
      simp [globMatch, hcs]
    | cons d s =>
      simp only [List.cons_append, globMatch, if_neg hcs]
      constructor
      · intro h
        rw [Bool.and_eq_true] at h
        obtain ⟨h1, h2⟩ := h
        have hcd : c = d := by
          simp only [Bool.or_eq_true, decide_eq_true_eq] at h1
          rcases h1 with h | h
          · exact absurd h hcq
          · exact h
        obtain ⟨t, ht, hm⟩ := (ih s hp').mp h2
        exact ⟨t, by simp [← hcd, ht], hm⟩
      · rintro ⟨t, ht, hm⟩
        rw [List.cons_eq_cons] at ht
        obtain ⟨hdc, hst⟩ := ht
        have h2 : globMatch (pre ++ pat) s = true := (ih s hp').mpr ⟨t, hst, hm⟩
        simp [h2, hdc]

/-- A glob-free literal followed by a star matches exactly the strings
that start with the literal. -/
theorem globMatch_prefix_star (pre k : Str) (hp : GlobFree pre) :
    globMatch (pre ++ ['*']) k = strStartsWith k pre := by
  by_cases h : pre <+: k
  · obtain ⟨r, hr⟩ := h
    have h1 : globMatch (pre ++ ['*']) k = true :=
      (globMatch_append_left pre (['*']) k hp).mpr ⟨r, hr.symm, globMatch_star r⟩
    rw [h1, (strStartsWith_iff k pre).mpr ⟨r, hr⟩]
  · have h1 : globMatch (pre ++ ['*']) k = false := by
      rw [Bool.eq_false_iff]
      intro hcon
      obtain ⟨t, ht, _⟩ := (globMatch_append_left pre (['*']) k hp).mp hcon
      exact h ⟨t, ht.symm⟩
    have h2 : strStartsWith k pre = false := by
      rw [Bool.eq_false_iff]
      intro hcon
      exact h ((strStartsWith_iff k pre).mp hcon)
    rw [h1, h2]

/-- Stripping a prefix that was just attached recovers the original key. -/
theorem removePrefix_append (pre t : Str) : removePrefix pre (pre ++ t) = t := by
  have h : strStartsWith (pre ++ t) pre = true :=
    (strStartsWith_iff (pre ++ t) pre).mpr ⟨t, rfl⟩
  simp [removePrefix, h]

/-- Keys not starting with the prefix pass through `removePrefix`
unchanged. -/
theorem removePrefix_of_not_startsWith (pre k : Str) (h : strStartsWith k pre = false) :
    removePrefix pre k = k := by
  simp [removePrefix, h]

/-- One round of the scan loop, unfolded. -/
theorem scanAllGo_succ (keyspace : List Str) (pat : Str) (count fuel cursor : Nat) :
    scanAllGo keyspace pat count (fuel + 1) cursor =
      if (clientScan keyspace pat count cursor).1 = 0 then
        (clientScan keyspace pat count cursor).2
      else
        (clientScan keyspace pat count cursor).2 ++
          scanAllGo keyspace pat count fuel (clientScan keyspace pat count cursor).1 := rfl

/-- With a positive page size and enough rounds of fuel, the scan loop
started at any cursor collects exactly the matching keys from that
position on. -/
theorem scanAllGo_drop (keyspace : List Str) (pat : Str) (count : Nat) (hc : 0 < count) :
    ∀ (fuel c : Nat), (clientMatches keyspace pat).length ≤ c + fuel →
      scanAllGo keyspace pat count (fuel + 1) c = (clientMatches keyspace pat).drop c := by
  intro fuel
  induction fuel with
  | zero =>
    intro c hle
    have h0 : (clientMatches keyspace pat).length ≤ c + count := by omega
    have hd : (clientMatches keyspace pat).drop c = [] :=
      List.drop_eq_nil_of_le (by omega)
    rw [scanAllGo_succ]
    simp [clientScan, if_pos h0, hd]
  | succ n ih =>
    intro c hle
    rw [scanAllGo_succ]
    by_cases hend : (clientMatches keyspace pat).length ≤ c + count
    · have hlen : ((clientMatches keyspace pat).drop c).length ≤ count := by
        rw [List.length_drop]
        omega
      simp [clientScan, if_pos hend, List.take_of_length_le hlen]
    · have hne : ¬(c + count = 0) := by omega
      have hih := ih (c + count) (by omega)
      simp only [clientScan, if_neg hend, if_neg hne, hih]
      rw [← List.drop_drop, List.take_append_drop]

/-- The wrapper scan with a positive page size returns exactly the
matching keys of the keyspace, in store order. -/
theorem scanAll_eq_clientMatches (keyspace : List Str) (pat : Str) (count : Nat)
    (hc : 0 < count) :
    RedisWrapper.scanAll keyspace pat count = clientMatches keyspace pat := by
  have hlen : (clientMatches keyspace pat).length ≤ 0 + keyspace.length := by
    have h := List.length_filter_le (fun k => globMatch pat k) keyspace
    simpa [clientMatches] using h
  have h := scanAllGo_drop keyspace pat count hc keyspace.length 0 hlen
  simpa [RedisWrapper.scanAll] using h

/-- Membership in the namespaced scan result, for glob-free prefixes:
exactly the logical keys whose physical form is in the keyspace and that
match the logical pattern. -/
theorem mem_namespaced_scanAll (keyspace : List Str) (pre pat : Str) (count : Nat)
    (hp : GlobFree pre) (hc : 0 < count) (K : Str) :
    K ∈ NamespacedRedis.scanAll keyspace pre pat count ↔
      addPrefix pre K ∈ keyspace ∧ globMatch pat K = true := by
  unfold NamespacedRedis.scanAll
  rw [scanAll_eq_clientMatches keyspace (addPrefix pre pat) count hc]
  constructor
  · intro h
    obtain ⟨x, hx, hxK⟩ := List.mem_map.mp h
    obtain ⟨hxs, hxg⟩ := List.mem_filter.mp hx
    obtain ⟨t, hxt, hmt⟩ := (globMatch_append_left pre pat x hp).mp hxg
    subst hxt
    rw [removePrefix_append] at hxK
    subst hxK
    exact ⟨hxs, hmt⟩
  · rintro ⟨hmem, hm⟩
    refine List.mem_map.mpr ⟨addPrefix pre K, List.mem_filter.mpr ⟨hmem, ?_⟩, ?_⟩
    · exact (globMatch_append_left pre pat (addPrefix pre K) hp).mpr ⟨K, rfl, hm⟩
    · exact removePrefix_append pre K

/-- A filter keeping the members of an earlier filter of the same list
is that earlier filter. -/
theorem filter_contains_filter (l : List Str) (p : Str → Bool) :
    l.filter (fun k => (l.filter p).contains k) = l.filter p := by
  apply List.filter_congr
  intro x hx
  cases hpx : p x with
  | true =>
    simp [List.contains, List.mem_filter, hx, hpx]
  | false =>
    simp [List.contains, List.mem_filter, hpx]

/-- A filter dropping the members of an earlier filter of the same list
keeps exactly the elements the earlier filter dropped. -/
theorem filter_not_contains_filter (l : List Str) (p : Str → Bool) :
    l.filter (fun k => !((l.filter p).contains k)) = l.filter (fun k => !(p k)) := by
  apply List.filter_congr
  intro x hx
  cases hpx : p x with
  | true =>
    simp [List.contains, List.mem_filter, hx, hpx]
  | false =>
    simp [List.contains, List.mem_filter, hpx]

/-- One round of the fallible scan loop, unfolded. -/
theorem scanAllGoE_succ {ε : Type} (scan : Nat → Except ε (Nat × List Str))
    (fuel cursor : Nat) :
    scanAllGoE scan (fuel + 1) cursor =
      match scan cursor with
      | Except.error e => Except.error e
      | Except.ok r =>
        if r.1 = 0 then Except.ok r.2
        else
          match scanAllGoE scan fuel r.1 with
          | Except.error e => Except.error e
          | Except.ok rest => Except.ok (r.2 ++ rest) := rfl

/-- A failure of the round issued at the current cursor makes the whole
loop return that failure. -/
theorem scanAllGoE_error_first {ε : Type} (scan : Nat → Except ε (Nat × List Str))
    (fuel c : Nat) (e : ε) (h : scan c = Except.error e) :
    scanAllGoE scan (fuel + 1) c = Except.error e := by
  rw [scanAllGoE_succ, h]

/-- A failure of a later round propagates out through an earlier
successful round: the accumulated page of the successful round is
discarded and the failure is returned whole. -/
theorem scanAllGoE_error_rest {ε : Type} (scan : Nat → Except ε (Nat × List Str))
    (fuel c c' : Nat) (page : List Str) (e : ε)
    (h : scan c = Except.ok (c', page)) (hne : c' ≠ 0)
    (herr : scanAllGoE scan fuel c' = Except.error e) :
    scanAllGoE scan (fuel + 1) c = Except.error e := by
  rw [scanAllGoE_succ, h]
  simp [hne, herr]

/-- Over an infallible scan the fallible loop computes exactly what the
plain loop computes, wrapped in success. -/
theorem scanAllGoE_ok {ε : Type} (keyspace : List Str) (pat : Str) (count : Nat) :
    ∀ (fuel c : Nat),
      scanAllGoE (fun cur => (Except.ok (clientScan keyspace pat count cur) : Except ε (Nat × List Str))) fuel c
        = Except.ok (scanAllGo keyspace pat count fuel c) := by
  intro fuel
  induction fuel with
  | zero => intro c; rfl
  | succ n ih =>
    intro c
    rw [scanAllGoE_succ, scanAllGo_succ]
    by_cases h0 : (clientScan keyspace pat count c).1 = 0
    · simp [h0]
    · simp [h0, ih]

/-- Characterization of `clearNamespace` for glob-free normalized
prefixes: it scans exactly the keys starting with the prefix, deletes
exactly those in one bulk call when any exist, and otherwise leaves the
keyspace alone without issuing a delete. -/
theorem clearNamespace_spec (keyspace : List Str) (ns : Str)
    (hp : GlobFree (normalizePrefix ns)) :
    clearNamespace keyspace ns =
      if (keyspace.filter (fun k => strStartsWith k (normalizePrefix ns))).length > 0 then
        ((keyspace.filter (fun k => strStartsWith k (normalizePrefix ns))).length,
         keyspace.filter (fun k => !(strStartsWith k (normalizePrefix ns))),
         [keyspace.filter (fun k => strStartsWith k (normalizePrefix ns))])
      else (0, keyspace, []) := by
  have hfil : clientMatches keyspace (normalizePrefix ns ++ ['*'])
      = keyspace.filter (fun k => strStartsWith k (normalizePrefix ns)) := by
    unfold clientMatches
    apply List.filter_congr
    intro x _
    exact globMatch_prefix_star (normalizePrefix ns) x hp
  simp only [clearNamespace]
  rw [scanAll_eq_clientMatches _ _ 1000 (by omega), hfil]
  by_cases hpos : (keyspace.filter (fun k => strStartsWith k (normalizePrefix ns))).length > 0
  · rw [if_pos hpos, if_pos hpos]
    simp only [redisDel]
    rw [filter_contains_filter, filter_not_contains_filter]
  · rw [if_neg hpos, if_neg hpos]

/-- C1: two namespace wrappers over the same shared connection whose
normalized prefixes differ produce distinct physical names for every
logical key or channel name; a value written under a logical key through
one wrapper is never observed by a get of the same key through the other
(the other's read is unchanged by the write); and a subscriber registered
under one namespace to a channel receives nothing published under the
other namespace to the same channel. -/
theorem C1_namespace_isolation (a b : Str)
    (hab : normalizePrefix a ≠ normalizePrefix b) :
    (∀ k : Str, addPrefix (normalizePrefix a) k ≠ addPrefix (normalizePrefix b) k) ∧
    (∀ (st : Store) (k v : Str),
      NamespacedRedis.get (NamespacedRedis.set st (normalizePrefix a) k v)
          (normalizePrefix b) k
        = NamespacedRedis.get st (normalizePrefix b) k) ∧
    (∀ (chan : Str) (i : Nat),
      NamespacedRedis.publish [NamespacedRedis.subscription (normalizePrefix a) chan i]
        (normalizePrefix b) chan = []) := by
  have hdist : ∀ k : Str,
      addPrefix (normalizePrefix a) k ≠ addPrefix (normalizePrefix b) k := by
    intro k h
    exact hab (List.append_cancel_right h)
  refine ⟨hdist, ?_, ?_⟩
  · intro st k v
    have hne : ¬(addPrefix (normalizePrefix b) k = addPrefix (normalizePrefix a) k) :=
      fun h => hdist k h.symm
    simp [NamespacedRedis.get, NamespacedRedis.set, redisGet, redisSet, hne]
  · intro chan i
    have hne : ¬(addPrefix (normalizePrefix a) chan = addPrefix (normalizePrefix b) chan) :=
      hdist chan
    simp [NamespacedRedis.publish, NamespacedRedis.subscription, publishTo, hne]

/-- Witness for C1 at the namespaces of the spec's own example. -/
theorem C1_namespace_isolation_witness :
    addPrefix (normalizePrefix (strOf ("auth"))) (strOf ("user:1"))
      ≠ addPrefix (normalizePrefix (strOf ("shop"))) (strOf ("user:1")) ∧
    NamespacedRedis.publish
      [NamespacedRedis.subscription (normalizePrefix (strOf ("auth"))) (strOf ("events")) 7]
      (normalizePrefix (strOf ("shop"))) (strOf ("events")) = [] :=
  ⟨(C1_namespace_isolation (strOf ("auth")) (strOf ("shop")) (by decide)).1 (strOf ("user:1")),
   (C1_namespace_isolation (strOf ("auth")) (strOf ("shop")) (by decide)).2.2
     (strOf ("events")) 7⟩

/-- C2 counterexample: under the namespace `*` (normalized prefix `*:`,
which contains a pattern-special character), scanning for the logical
pattern `x` over a keyspace holding only `b:x` returns the logical key
`b:x` — but its physical form `*:b:x` is not in the store, so the result
is not the claimed set of logical keys, and a key of the foreign
namespace `b` appears in the result. -/
theorem C2_scan_counterexample :
    NamespacedRedis.scanAll [strOf ("b:x")] (normalizePrefix (strOf ("*")))
        (strOf ("x")) 1000 = [strOf ("b:x")] ∧
    ¬(addPrefix (normalizePrefix (strOf ("*"))) (strOf ("b:x")) ∈ [strOf ("b:x")] ∧
        globMatch (strOf ("x")) (strOf ("b:x")) = true) := by
  decide

/-- C2 (amended): when the normalized prefix contains no pattern-special
character and the page size is positive, `scanAll` under namespace N
returns exactly the logical keys K whose physical form `N ++ K` is in
the keyspace and which match the logical pattern; every returned string
is prefix-stripped and no foreign-namespace key appears. -/
theorem C2_scanAll_exact (keyspace : List Str) (pre pat : Str) (count : Nat)
    (hp : GlobFree pre) (hc : 0 < count) :
    ∀ K : Str, K ∈ NamespacedRedis.scanAll keyspace pre pat count ↔
      addPrefix pre K ∈ keyspace ∧ globMatch pat K = true := by
  intro K
  exact mem_namespaced_scanAll keyspace pre pat count hp hc K

/-- Witness for C2 (amended): the namespaced scan under `a:` sees `a:s1`
as logical `s1` and not the foreign `b:s1`. -/
theorem C2_scanAll_exact_witness :
    strOf ("s1") ∈ NamespacedRedis.scanAll [strOf ("a:s1"), strOf ("b:s1")]
      (strOf ("a:")) (strOf ("s*")) 1000 := by
  have h := C2_scanAll_exact [strOf ("a:s1"), strOf ("b:s1")] (strOf ("a:"))
    (strOf ("s*")) 1000 (by decide) (by decide) (strOf ("s1"))
  exact h.mpr (by decide)

/-- C3: the namespaced set stores the value under the single physical key
obtained by pure string concatenation of the normalized prefix and the
logical key — no hashing, no escaping — so a direct read of that physical
key on the shared connection returns the value, and no other physical key
is touched. -/
theorem C3_prefix_transparency (st : Store) (pre k v : Str) :
    addPrefix pre k = pre ++ k ∧
    redisGet (NamespacedRedis.set st pre k v) (pre ++ k) = some v ∧
    (∀ pk : Str, pk ≠ pre ++ k →
        redisGet (NamespacedRedis.set st pre k v) pk = redisGet st pk) := by
  refine ⟨rfl, ?_, ?_⟩
  · simp [NamespacedRedis.set, redisSet, redisGet, addPrefix]
  · intro pk hpk
    simp [NamespacedRedis.set, redisSet, redisGet, addPrefix, hpk]

/-- Witness for C3 at a concrete store, namespace and key. -/
theorem C3_prefix_transparency_witness :
    redisGet (NamespacedRedis.set (fun _ => none) (strOf ("app:")) (strOf ("k"))
        (strOf ("v"))) (strOf ("app:") ++ strOf ("k")) = some (strOf ("v")) ∧
    redisGet (NamespacedRedis.set (fun _ => none) (strOf ("app:")) (strOf ("k"))
        (strOf ("v"))) (strOf ("zz")) = redisGet (fun _ => none) (strOf ("zz")) :=
  ⟨(C3_prefix_transparency (fun _ => none) (strOf ("app:")) (strOf ("k")) (strOf ("v"))).2.1,
   (C3_prefix_transparency (fun _ => none) (strOf ("app:")) (strOf ("k")) (strOf ("v"))).2.2
     (strOf ("zz")) (by decide)⟩

/-- C4 counterexample: the namespace `ns::` already ends with a colon, so
normalization keeps it verbatim — and the resulting prefix ends with TWO
separator characters, refuting "always ends with exactly one separator
character". -/
theorem C4_normalization_counterexample :
    normalizePrefix (strOf ("ns::")) = strOf ("ns::") ∧
    endsWithOneSep (normalizePrefix (strOf ("ns::"))) = false := by
  decide

/-- C4 (amended): normalization appends a colon when the namespace does
not end in one and keeps the namespace verbatim when it does (never
double-separating), so `ns` and `ns:` yield the identical prefix `ns:`
and the empty namespace yields `:`; the normalized prefix always ends
with at least one separator character (an input with several trailing
separators is kept as supplied). -/
theorem C4_normalization (ns : Str) :
    normalizePrefix (strOf ("ns")) = strOf ("ns:") ∧
    normalizePrefix (strOf ("ns:")) = strOf ("ns:") ∧
    normalizePrefix ([] : Str) = [':'] ∧
    strEndsWith (normalizePrefix ns) [':'] = true ∧
    (strEndsWith ns [':'] = true → normalizePrefix ns = ns) ∧
    (strEndsWith ns [':'] = false → normalizePrefix ns = ns ++ [':']) := by
  refine ⟨by decide, by decide, by decide, ?_, ?_, ?_⟩
  · unfold normalizePrefix
    by_cases h : strEndsWith ns [':'] = true
    · rw [if_pos h]
      exact h
    · rw [if_neg h]
      rw [strEndsWith_iff]
      exact List.suffix_append ns [':']
  · intro h
    unfold normalizePrefix
    rw [if_pos h]
  · intro h
    unfold normalizePrefix
    rw [if_neg (by simp [h])]

/-- Witness for C4 (amended), exercising both normalization branches. -/
theorem C4_normalization_witness :
    normalizePrefix (strOf ("abc:")) = strOf ("abc:") ∧
    normalizePrefix (strOf ("x")) = strOf ("x") ++ [':'] :=
  ⟨(C4_normalization (strOf ("abc:"))).2.2.2.2.1 (by decide),
   (C4_normalization (strOf ("x"))).2.2.2.2.2 (by decide)⟩

/-- C5 counterexample: clearing the namespace `a*` (whose normalized
prefix contains a pattern-special character) deletes the key `ab:x`,
which belongs to the different namespace `ab` and does not start with the
normalized prefix `a*:` — so "keys under other namespaces are never
deleted" fails as stated. -/
theorem C5_clearNamespace_counterexample :
    clearNamespace [strOf ("ab:x")] (strOf ("a*")) = (1, [], [[strOf ("ab:x")]]) ∧
    strStartsWith (strOf ("ab:x")) (normalizePrefix (strOf ("a*"))) = false := by
  decide

/-- C5 (amended): for a namespace whose normalized prefix is glob-free,
`clearNamespace` scans the keyspace for the keys starting with the
prefix; when none are found it returns 0, leaves the keyspace unchanged
and issues no delete call; when some are found it issues exactly one bulk
delete of exactly those keys, returns the number of keys removed, and
every key not under the namespace survives. -/
theorem C5_clearNamespace (keyspace : List Str) (ns : Str)
    (hp : GlobFree (normalizePrefix ns)) :
    (keyspace.filter (fun k => strStartsWith k (normalizePrefix ns)) = [] →
        clearNamespace keyspace ns = (0, keyspace, [])) ∧
    (keyspace.filter (fun k => strStartsWith k (normalizePrefix ns)) ≠ [] →
        clearNamespace keyspace ns =
          ((keyspace.filter (fun k => strStartsWith k (normalizePrefix ns))).length,
           keyspace.filter (fun k => !(strStartsWith k (normalizePrefix ns))),
           [keyspace.filter (fun k => strStartsWith k (normalizePrefix ns))])) := by
  constructor
  · intro h
    rw [clearNamespace_spec keyspace ns hp, h]
    simp
  · intro h
    rw [clearNamespace_spec keyspace ns hp,
      if_pos (List.length_pos.mpr h)]

/-- Witness for C5 (amended), exercising both the delete and the
no-delete branch on a two-key store. -/
theorem C5_clearNamespace_witness :
    clearNamespace [strOf ("m:a"), strOf ("n:b")] (strOf ("m"))
        = (1, [strOf ("n:b")], [[strOf ("m:a")]]) ∧
    clearNamespace [strOf ("m:a"), strOf ("n:b")] (strOf ("zz"))
        = (0, [strOf ("m:a"), strOf ("n:b")], []) := by
  constructor
  · have h := (C5_clearNamespace [strOf ("m:a"), strOf ("n:b")] (strOf ("m"))
      (by decide)).2 (by decide)
    rw [h]
    decide
  · exact (C5_clearNamespace [strOf ("m:a"), strOf ("n:b")] (strOf ("zz"))
      (by decide)).1 (by decide)

/-- C6: the namespaced `setTTL` forwards to the identically-named
operation on the shared connection with the namespace-prefixed key and
returns its result unchanged, exactly as the other TTL operations `ttl`
and `expire` forward to theirs. -/
theorem C6_setTTL_forwarding (c : RedisConn) (pre k : Str) (seconds : Int) :
    NamespacedRedis.setTTL c pre k seconds = c.setTTL (addPrefix pre k) seconds ∧
    NamespacedRedis.ttl c pre k = c.ttl (addPrefix pre k) ∧
    NamespacedRedis.expire c pre k seconds = c.expire (addPrefix pre k) seconds :=
  ⟨rfl, rfl, rfl⟩

/-- C7: the namespaced `exists` prefixes every key of the variadic list,
but its result is the underlying client's existence check of the first
prefixed key alone; the tail of the key list has no effect on the
result. -/
theorem C7_exists_first_key_only (st : Store) (pre : Str) (k : Str) (ks ks' : List Str) :
    NamespacedRedis.existsKeys st pre (k :: ks)
        = RedisWrapper.existsKeys st ((k :: ks).map (fun x => addPrefix pre x)) ∧
    NamespacedRedis.existsKeys st pre (k :: ks) = clientExists st (addPrefix pre k) ∧
    NamespacedRedis.existsKeys st pre (k :: ks) = NamespacedRedis.existsKeys st pre (k :: ks') :=
  ⟨rfl, rfl, rfl⟩

/-- C8: `scanAll` starts at the `0` cursor sentinel, repeatedly issues
the underlying scan, accumulating every page, until the sentinel returns,
and then yields the full accumulated (= full matching) key set; over the
fallible scan model a failure of the round at the current cursor, or a
failure propagating from the remaining rounds, makes the entire call
return that failure, discarding every accumulated page. -/
theorem C8_scanAll_loop :
    (∀ (keyspace : List Str) (pat : Str) (count : Nat), 0 < count →
        RedisWrapper.scanAll keyspace pat count = clientMatches keyspace pat) ∧
    (∀ (ε : Type) (keyspace : List Str) (pat : Str) (count fuel c : Nat),
        scanAllGoE (fun cur =>
            (Except.ok (clientScan keyspace pat count cur) : Except ε (Nat × List Str))) fuel c
          = Except.ok (scanAllGo keyspace pat count fuel c)) ∧
    (∀ (ε : Type) (scan : Nat → Except ε (Nat × List Str)) (fuel c : Nat) (e : ε),
        scan c = Except.error e → scanAllGoE scan (fuel + 1) c = Except.error e) ∧
    (∀ (ε : Type) (scan : Nat → Except ε (Nat × List Str)) (fuel c c' : Nat)
        (page : List Str) (e : ε),
        scan c = Except.ok (c', page) → c' ≠ 0 → scanAllGoE scan fuel c' = Except.error e →
          scanAllGoE scan (fuel + 1) c = Except.error e) ∧
    (∀ (ε : Type) (scan : Nat → Except ε (Nat × List Str)) (fuel : Nat),
        RedisWrapper.scanAllE scan fuel = scanAllGoE scan fuel 0) :=
  ⟨fun ks p cnt h => scanAll_eq_clientMatches ks p cnt h,
   fun _ ks p cnt fuel c => scanAllGoE_ok ks p cnt fuel c,
   fun _ scan fuel c e h => scanAllGoE_error_first scan fuel c e h,
   fun _ scan fuel c c' page e h hne herr =>
     scanAllGoE_error_rest scan fuel c c' page e h hne herr,
   fun _ _ _ => rfl⟩

/-- Witness for C8: a one-key scan returns its matching set, and a scan
whose first round fails returns exactly that failure. -/
theorem C8_scanAll_loop_witness :
    RedisWrapper.scanAll [strOf ("q:1")] (strOf ("q:*")) 5
        = clientMatches [strOf ("q:1")] (strOf ("q:*")) ∧
    scanAllGoE (fun _ => (Except.error 3 : Except Nat (Nat × List Str))) 1 0
        = Except.error 3 :=
  ⟨C8_scanAll_loop.1 [strOf ("q:1")] (strOf ("q:*")) 5 (by decide),
   C8_scanAll_loop.2.2.1 Nat (fun _ => Except.error 3) 0 0 3 rfl⟩

/-- C9: disposing a namespace wrapper is the identity on the shared
connection state — the connection stays open, no key changes, and every
subsequent read or namespaced read behaves exactly as without the
disposal. -/
theorem C9_dispose_noop (s : RedisConnState) :
    NamespacedRedis.asyncDispose s = s ∧
    (NamespacedRedis.asyncDispose s).closed = s.closed ∧
    (∀ k : Str, redisGet (NamespacedRedis.asyncDispose s).store k = redisGet s.store k) ∧
    (∀ pre k : Str,
      NamespacedRedis.get (NamespacedRedis.asyncDispose s).store pre k
        = NamespacedRedis.get s.store pre k) :=
  ⟨rfl, rfl, fun _ => rfl, fun _ _ => rfl⟩

/-- C10: prefix stripping in the namespaced scan applies only to returned
keys literally beginning with the normalized prefix; a returned physical
key that does not start with the prefix is passed back to the caller
unchanged — neither an error nor filtered out. -/
theorem C10_removePrefix_passthrough (keyspace : List Str) (pre pat : Str)
    (count : Nat) (k : Str) :
    (strStartsWith k pre = false → removePrefix pre k = k) ∧
    (strStartsWith k pre = true → removePrefix pre k = k.drop pre.length) ∧
    (k ∈ RedisWrapper.scanAll keyspace (addPrefix pre pat) count →
        strStartsWith k pre = false →
        k ∈ NamespacedRedis.scanAll keyspace pre pat count) := by
  refine ⟨removePrefix_of_not_startsWith pre k, ?_, ?_⟩
  · intro h
    simp [removePrefix, h]
  · intro hmem hns
    unfold NamespacedRedis.scanAll
    exact List.mem_map.mpr ⟨k, hmem, removePrefix_of_not_startsWith pre k hns⟩

/-- Witness for C10: under the glob-special namespace `*`, the physical
scan for `*:x` matches the foreign key `other:x`, which does not start
with the prefix `*:` and is returned unchanged by the namespaced scan. -/
theorem C10_removePrefix_passthrough_witness :
    strOf ("other:x") ∈ NamespacedRedis.scanAll [strOf ("other:x")]
      (normalizePrefix (strOf ("*"))) (strOf ("x")) 1000 :=
  (C10_removePrefix_passthrough [strOf ("other:x")] (normalizePrefix (strOf ("*")))
    (strOf ("x")) 1000 (strOf ("other:x"))).2.2 (by decide) (by decide)
